import Mathlib

/-!
Shallow embedding of the booking-rules core of the scubemanager repository:
the overlap check and submission validation of `src/components/BookingForm.tsx`,
the store handlers and derived views of `src/App.tsx`, and the report
statistics of `src/components/Reports.tsx`.

JavaScript numbers are modelled as `Option ℚ`, where `none` stands for `NaN`
(every comparison with `NaN` is false, and arithmetic on it yields `NaN`).
JavaScript strings are Lean strings; the string-to-number conversions used by
the code (`parseInt`, `Number`, `split`, `replace`) are modelled below on the
character lists of those strings.
-/

/-- Numeric value of a decimal digit character. -/
def digitVal (c : Char) : Nat := c.toNat - 48

/-- Value of a list of decimal digit characters, most significant first. -/
def digitsToNat (cs : List Char) : Nat := cs.foldl (fun n c => 10 * n + digitVal c) 0

/-- Decimal digit test, by code point. -/
def isDigitChar (c : Char) : Bool := 48 ≤ c.toNat && c.toNat ≤ 57

/-- Whitespace test for the characters `parseInt` and `Number` skip. -/
def isSpaceChar (c : Char) : Bool := c = ' ' || c = '\t' || c = '\n' || c = '\r'

/-- Remove the first occurrence of a character; models the JS
`String.prototype.replace` with a one-character string pattern and an empty
replacement, which replaces only the first occurrence. -/
def removeFirstChar (c : Char) : List Char → List Char
  | [] => []
  | x :: xs => if x = c then xs else x :: removeFirstChar c xs

/-- Split a character list at every occurrence of a separator character;
models `String.prototype.split` with a one-character separator. -/
def splitOnChar (c : Char) : List Char → List (List Char)
  | [] => [[]]
  | x :: xs =>
    let r := splitOnChar c xs
    if x = c then [] :: r
    else
      match r with
      | [] => [[x]]
      | y :: ys => (x :: y) :: ys

/-- Strip leading and trailing whitespace; models `String.prototype.trim`. -/
def trimChars (cs : List Char) : List Char :=
  ((cs.dropWhile isSpaceChar).reverse.dropWhile isSpaceChar).reverse

/-- JS `parseInt` in base 10 on a character list: skip leading whitespace,
read an optional sign and then the longest prefix of digits; `none` models the
`NaN` result when no digit is found.  (Hexadecimal and exponent forms never
arise from the `HH:mm` strings this program feeds to `parseInt`.) -/
def jsParseIntChars (cs : List Char) : Option Int :=
  let t := cs.dropWhile isSpaceChar
  let sign : Int := if t.head? = some '-' then -1 else 1
  let t2 := if t.head? = some '-' ∨ t.head? = some '+' then t.tail else t
  let ds := t2.takeWhile isDigitChar
  if ds.isEmpty then none else some (sign * (digitsToNat ds : Int))

/-- JS `parseInt` on a string. -/
def jsParseInt (s : String) : Option Int := jsParseIntChars s.data

/-- JS `Number` conversion of a string given as a character list: the whole
trimmed string must be an optionally signed decimal numeral (an empty string
converts to `0`); anything else is `NaN`, modelled as `none`.  (Hexadecimal,
exponent and `Infinity` forms never arise from the time components this
program converts.) -/
def jsNumberChars (cs : List Char) : Option ℚ :=
  let t := trimChars cs
  if t.isEmpty then some 0
  else
    let sign : ℚ := if t.head? = some '-' then -1 else 1
    let t2 := if t.head? = some '-' ∨ t.head? = some '+' then t.tail else t
    let ip := t2.takeWhile isDigitChar
    let rest := t2.dropWhile isDigitChar
    match rest with
    | [] => if ip.isEmpty then none else some (sign * (digitsToNat ip : ℚ))
    | '.' :: frac =>
      if frac.all isDigitChar && !(ip.isEmpty && frac.isEmpty) then
        some (sign * ((digitsToNat ip : ℚ) + (digitsToNat frac : ℚ) / ((10 : ℚ) ^ frac.length)))
      else none
    | _ => none

/-- Addition of JS numbers: `NaN` absorbs. -/
def jsAdd (a b : Option ℚ) : Option ℚ :=
  match a, b with
  | some x, some y => some (x + y)
  | _, _ => none

/-- Multiplication of JS numbers: `NaN` absorbs. -/
def jsMul (a b : Option ℚ) : Option ℚ :=
  match a, b with
  | some x, some y => some (x * y)
  | _, _ => none

/-- The JS `<` comparison: any comparison involving `NaN` is false. -/
def jsLt (a b : Option ℚ) : Bool :=
  match a, b with
  | some x, some y => decide (x < y)
  | _, _ => false

/-- The JS `>` comparison: any comparison involving `NaN` is false. -/
def jsGt (a b : Option ℚ) : Bool :=
  match a, b with
  | some x, some y => decide (y < x)
  | _, _ => false

/-- Truthiness of an optional JS string: `undefined` and the empty string are
falsy. -/
def jsStrTruthy (o : Option String) : Bool :=
  match o with
  | some s => !(s == "")
  | none => false

/-- Truthiness of an optional JS number: `undefined`, `NaN` and `0` are
falsy. -/
def jsNumTruthy (o : Option ℚ) : Bool :=
  match o with
  | some x => !(x == 0)
  | none => false

/-- The JS `x || d` idiom on an optional string: the default is taken when the
field is absent or empty. -/
def jsStrOr (o : Option String) (d : String) : String :=
  match o with
  | some s => if s == "" then d else s
  | none => d

/-- Booking lifecycle states, from `src/types.ts`. -/
inductive BookingStatus where
  | CONFIRMED
  | COMPLETED
  | CANCELLED
  deriving DecidableEq, Repr

/-- Invoice snapshot attached to a booking, from `src/types.ts`. -/
structure InvoiceDetails where
  ratePerHour : ℚ
  totalAmount : ℚ
  generatedAt : Int
  deriving DecidableEq, Repr

/-- The `Booking` record of `src/types.ts`.  `durationHours` is a JS number
and may be `NaN` (modelled `none`), which happens when a submission carries no
duration (`Number(undefined)`). -/
structure Booking where
  id : String
  clientName : String
  phoneNumber : Option String
  date : String
  startTime : String
  durationHours : Option ℚ
  actualEndTime : Option String
  type : String
  status : BookingStatus
  createdAt : Int
  notes : Option String
  invoiceDetails : Option InvoiceDetails
  deriving DecidableEq, Repr

/-- The `Partial Booking` form state consumed by `handleSubmit` and
`checkOverlap` in `src/components/BookingForm.tsx`. -/
structure FormData where
  clientName : Option String
  phoneNumber : Option String
  date : Option String
  startTime : Option String
  durationHours : Option ℚ
  type : Option String
  notes : Option String
  deriving DecidableEq, Repr

/-- The candidate-time arithmetic of `checkOverlap`: `parseInt` of the start
time with its first colon removed, followed by `Math.floor(n / 100)` for the
hour, `n % 100` for the minute (the JS remainder keeps the dividend sign, and
`Math.floor` rounds down), and `hour * 60 + minute`. -/
def parseCandidateMinutes (st : String) : Option Int :=
  (jsParseIntChars (removeFirstChar ':' st.data)).map fun n =>
    (Int.fdiv n 100) * 60 + Int.tmod n 100

/-- The stored-booking time arithmetic of `checkOverlap`:
`startTime.split(c).map(Number)` and `parts[0] * 60 + parts[1]`; a missing
part is `undefined`, whose arithmetic is `NaN`. -/
def timeToMinutes (st : String) : Option ℚ :=
  match (splitOnChar ':' st.data).map jsNumberChars with
  | p0 :: p1 :: _ => jsAdd (jsMul p0 (some 60)) p1
  | _ => none

/-- The overlap check of `src/components/BookingForm.tsx` (lines 33-54): the
candidate must have truthy `date`, `startTime` and `durationHours`, and is
compared by open intervals against every non-cancelled stored booking of the
same date. -/
def checkOverlap (nb : FormData) (existing : List Booking) : Bool :=
  if !(jsStrTruthy nb.date) || !(jsStrTruthy nb.startTime) || !(jsNumTruthy nb.durationHours) then
    false
  else
    let newStartTimeMinutes : Option ℚ := (parseCandidateMinutes (nb.startTime.getD "")).map (fun n => (n : ℚ))
    let newEndTimeMinutes : Option ℚ := jsAdd newStartTimeMinutes (jsMul nb.durationHours (some 60))
    existing.any fun b =>
      if b.status = BookingStatus.CANCELLED then false
      else if b.date ≠ nb.date.getD "" then false
      else
        let bStartMinutes := timeToMinutes b.startTime
        let bEndMinutes := jsAdd bStartMinutes (jsMul b.durationHours (some 60))
        jsLt newStartTimeMinutes bEndMinutes && jsGt newEndTimeMinutes bStartMinutes

/-- The booking literal built by `handleSubmit` on a successful submission;
`newId` stands for the generated UUID and `now` for `Date.now()`.  After the
required-field guard, `clientName`, `date` and `startTime` are present, so the
`getD` defaults never fire on the success path. -/
def newBookingOf (fd : FormData) (newId : String) (now : Int) : Booking :=
  { id := newId
    clientName := fd.clientName.getD ""
    phoneNumber := some (jsStrOr fd.phoneNumber "")
    date := fd.date.getD ""
    startTime := fd.startTime.getD ""
    durationHours := fd.durationHours
    actualEndTime := none
    type := jsStrOr fd.type "General"
    status := BookingStatus.CONFIRMED
    createdAt := now
    notes := fd.notes
    invoiceDetails := none }

/-- Result of a submission: the error message surfaced to the form, if any,
and the booking collection after the `onAddBooking` callback. -/
structure SubmitResult where
  error : Option String
  bookings : List Booking
  deriving DecidableEq, Repr

/-- The submission handler of `src/components/BookingForm.tsx` (lines 56-85):
reject when `clientName`, `date` or `startTime` is falsy, then when
`checkOverlap` fires; otherwise append the new `CONFIRMED` booking. -/
def handleSubmit (fd : FormData) (newId : String) (now : Int) (existing : List Booking) : SubmitResult :=
  if !(jsStrTruthy fd.clientName) || !(jsStrTruthy fd.date) || !(jsStrTruthy fd.startTime) then
    { error := some "Please fill in all required fields.", bookings := existing }
  else if checkOverlap fd existing then
    { error := some "Overlap Detected! This slot is already booked.", bookings := existing }
  else
    { error := none, bookings := existing ++ [newBookingOf fd newId now] }

/-- The `handleAddBooking` handler of `src/App.tsx`: append. -/
def handleAddBooking (newBooking : Booking) (bs : List Booking) : List Booking :=
  bs ++ [newBooking]

/-- The `handleStatusChange` handler of `src/App.tsx`: set the status of every
booking whose id matches. -/
def handleStatusChange (id : String) (status : BookingStatus) (bs : List Booking) : List Booking :=
  bs.map fun b => if b.id = id then { b with status := status } else b

/-- The `handleComplete` handler of `src/App.tsx`: mark the matching booking
completed and stamp the supplied end time. -/
def handleComplete (id : String) (endTime : String) (bs : List Booking) : List Booking :=
  bs.map fun b =>
    if b.id = id then { b with status := BookingStatus.COMPLETED, actualEndTime := some endTime }
    else b

/-- The `handleUpdateBooking` handler of `src/App.tsx`: replace the booking
with the same id wholesale. -/
def handleUpdateBooking (updatedBooking : Booking) (bs : List Booking) : List Booking :=
  bs.map fun b => if b.id = updatedBooking.id then updatedBooking else b

/-- The `getTodaysBookings` view of `src/App.tsx`: bookings dated today,
sorted by start time (the `localeCompare` comparator, modelled as the
code-point order, which agrees with it on ASCII digit/colon strings; the JS
sort is stable, modelled by the stable `mergeSort`). -/
def getTodaysBookings (today : String) (bs : List Booking) : List Booking :=
  (bs.filter fun b => b.date == today).mergeSort fun a b =>
    decide (a.startTime ≤ b.startTime)

/-- The `getUpcomingBookings` view of `src/App.tsx`: bookings dated today or
later, sorted by the concatenation of date and start time. -/
def getUpcomingBookings (today : String) (bs : List Booking) : List Booking :=
  (bs.filter fun b => decide (today ≤ b.date)).mergeSort fun a b =>
    decide (a.date ++ a.startTime ≤ b.date ++ b.startTime)

/-- The date-range filter of `src/components/Reports.tsx`. -/
def filteredBookings (bs : List Booking) (startDate endDate : String) : List Booking :=
  bs.filter fun b => decide (startDate ≤ b.date) && decide (b.date ≤ endDate)

/-- The aggregate statistics object computed in `src/components/Reports.tsx`
(lines 16-27). -/
structure ReportStats where
  total : Nat
  completed : Nat
  cancelled : Nat
  hours : Option ℚ
  deriving DecidableEq, Repr

/-- The `stats` computation of `src/components/Reports.tsx`: counts over the
filtered range and the `reduce` summing non-cancelled durations. -/
def reportStats (bs : List Booking) (startDate endDate : String) : ReportStats :=
  let fb := filteredBookings bs startDate endDate
  { total := fb.length
    completed := (fb.filter fun b => b.status = BookingStatus.COMPLETED).length
    cancelled := (fb.filter fun b => b.status = BookingStatus.CANCELLED).length
    hours := fb.foldl
      (fun acc curr =>
        jsAdd acc (if curr.status ≠ BookingStatus.CANCELLED then curr.durationHours else some 0))
      (some 0) }

/-- Well-formed `HH:mm` clock string: two digits, a colon, two digits.  This
is the shape the time inputs of the UI produce and the shape the data model
prescribes for `startTime`. -/
def isHHMM (st : String) : Bool :=
  match st.data with
  | [a, b, c, d, e] => isDigitChar a && isDigitChar b && (c == ':') && isDigitChar d && isDigitChar e
  | _ => false

/-- An `HH:mm` string read as minutes since midnight, the reading the
specification uses when it speaks of interval endpoints. -/
def specTimeMinutes (st : String) : ℚ :=
  match splitOnChar ':' st.data with
  | [h, m] => 60 * (digitsToNat h : ℚ) + (digitsToNat m : ℚ)
  | _ => 0

/-- Interval start of a booking in the specification's reading. -/
def specStart (b : Booking) : ℚ := specTimeMinutes b.startTime

/-- Interval end of a booking in the specification's reading:
`start + durationHours * 60`, undefined (`none`) when the stored duration is
`NaN`. -/
def specEnd (b : Booking) : Option ℚ :=
  b.durationHours.map fun d => specStart b + d * 60

/-- The specification's overlap relation between two stored bookings: same
date, both non-cancelled, and open-interval intersection
`b1.start < b2.end AND b1.end > b2.start`. -/
def specOverlapB (b1 b2 : Booking) : Bool :=
  (b1.date == b2.date)
    && !(b1.status == BookingStatus.CANCELLED)
    && !(b2.status == BookingStatus.CANCELLED)
    && jsLt (some (specStart b1)) (specEnd b2)
    && jsGt (specEnd b1) (some (specStart b2))

/-- The collection invariant claimed by the specification: no two bookings of
the collection overlap. -/
def noOverlapInvariant (bs : List Booking) : Prop :=
  List.Pairwise (fun b1 b2 => specOverlapB b1 b2 = false) bs

/-- One submission of the booking form: the form state together with the
generated id and creation timestamp. -/
structure CreateInput where
  fd : FormData
  newId : String
  now : Int
  deriving Repr

/-- Run a sequence of submissions through `handleSubmit`: each submission that
passes validation appends its booking, a rejected one leaves the collection
unchanged. -/
def createsRun (bs : List Booking) : List CreateInput → List Booking
  | [] => bs
  | inp :: rest => createsRun (handleSubmit inp.fd inp.newId inp.now bs).bookings rest

/-- The store mutations of `src/App.tsx`, as data. -/
inductive StoreOp where
  | add (b : Booking)
  | statusChange (id : String) (status : BookingStatus)
  | complete (id : String) (endTime : String)
  | update (b : Booking)
  deriving Repr

/-- Apply one store mutation. -/
def applyOp (bs : List Booking) : StoreOp → List Booking
  | .add b => handleAddBooking b bs
  | .statusChange id s => handleStatusChange id s bs
  | .complete id t => handleComplete id t bs
  | .update b => handleUpdateBooking b bs

/-- Apply a sequence of store mutations in order. -/
def applyOps (bs : List Booking) : List StoreOp → List Booking
  | [] => bs
  | op :: rest => applyOps (applyOp bs op) rest

/-- The way the surrounding UI invokes the store mutations, read off
`BookingList.tsx`: cancel and complete buttons are rendered only for
`CONFIRMED` bookings, `handleUpdateBooking` is used only for the invoice
snapshot (spreading the existing booking, hence preserving its status), and a
creation arrives with a freshly generated id and status `CONFIRMED`. -/
def uiInvocable (bs : List Booking) : StoreOp → Prop
  | .add b => b.status = BookingStatus.CONFIRMED ∧ ∀ b' ∈ bs, b'.id ≠ b.id
  | .statusChange id s =>
      s = BookingStatus.CANCELLED ∧ ∀ b' ∈ bs, b'.id = id → b'.status = BookingStatus.CONFIRMED
  | .complete id _ => ∀ b' ∈ bs, b'.id = id → b'.status = BookingStatus.CONFIRMED
  | .update b => ∀ b' ∈ bs, b'.id = b.id → b'.status = b.status

/-- A sequence of store mutations each of which is UI-invocable in the state
it is applied to. -/
def uiSequence (bs : List Booking) : List StoreOp → Prop
  | [] => True
  | op :: rest => uiInvocable bs op ∧ uiSequence (applyOp bs op) rest

/-- Example form data: a two-hour session at 10:00. -/
def exFormA : FormData :=
  ⟨some "Asha", none, some "2024-06-01", some "10:00", some 2, some "Vocal Recording", none⟩

/-- Example form data: a zero-duration submission at 11:00, strictly inside
the 10:00-12:00 slot of `exFormA`. -/
def exFormZero : FormData :=
  ⟨some "Ben", none, some "2024-06-01", some "11:00", some 0, some "Vocal Recording", none⟩

/-- Example form data: a one-hour session at 12:00, touching the end of the
10:00-12:00 slot of `exFormA`. -/
def exFormTouch : FormData :=
  ⟨some "Ben", none, some "2024-06-01", some "12:00", some 1, some "Dubbing", none⟩

/-- The booking `handleSubmit` builds from `exFormA`. -/
def exBookingA : Booking :=
  ⟨"id1", "Asha", some "", "2024-06-01", "10:00", some 2, none, "Vocal Recording",
    BookingStatus.CONFIRMED, 0, none, none⟩

/-- The booking `handleSubmit` builds from `exFormZero`. -/
def exBookingZero : Booking :=
  ⟨"id2", "Ben", some "", "2024-06-01", "11:00", some 0, none, "Vocal Recording",
    BookingStatus.CONFIRMED, 1, none, none⟩

/-- Example stored booking in the `CANCELLED` state. -/
def exCancelled : Booking :=
  ⟨"id3", "Cara", none, "2024-06-02", "09:00", some 1, none, "Jamming",
    BookingStatus.CANCELLED, 0, none, none⟩

/-- Example stored booking in the `COMPLETED` state. -/
def exCompleted : Booking :=
  ⟨"id4", "Dev", none, "2024-06-02", "10:00", some 3, none, "Mixing",
    BookingStatus.COMPLETED, 0, none, none⟩

/-- Scenario D of the specification: one completed three-hour, one cancelled
two-hour and one confirmed one-hour booking. -/
def exScenarioD : List Booking :=
  [⟨"d1", "P", none, "2024-06-02", "10:00", some 3, some "13:00", "Vocal Recording",
      BookingStatus.COMPLETED, 0, none, none⟩,
   ⟨"d2", "Q", none, "2024-06-03", "10:00", some 2, none, "Dubbing",
      BookingStatus.CANCELLED, 0, none, none⟩,
   ⟨"d3", "R", none, "2024-06-04", "10:00", some 1, none, "Podcast",
      BookingStatus.CONFIRMED, 0, none, none⟩]

instance noOverlapInvariantDecidable (bs : List Booking) : Decidable (noOverlapInvariant bs) := by
  unfold noOverlapInvariant
  infer_instance

/-! Bridge lemmas: on well-formed `HH:mm` strings the two parsing paths of
`checkOverlap` agree with the specification's minutes-since-midnight
reading. -/

theorem isDigitChar_bounds {c : Char} (h : isDigitChar c = true) :
    48 ≤ c.toNat ∧ c.toNat ≤ 57 := by
  simpa [isDigitChar] using h

theorem digitVal_le {c : Char} (h : isDigitChar c = true) : digitVal c ≤ 9 := by
  obtain ⟨h1, h2⟩ := isDigitChar_bounds h
  unfold digitVal
  omega

theorem isDigitChar_ne_colon {c : Char} (h : isDigitChar c = true) : c ≠ ':' := by
  rintro rfl
  exact absurd h (by decide)

theorem isDigitChar_ne_minus {c : Char} (h : isDigitChar c = true) : c ≠ '-' := by
  rintro rfl
  exact absurd h (by decide)

theorem isDigitChar_ne_plus {c : Char} (h : isDigitChar c = true) : c ≠ '+' := by
  rintro rfl
  exact absurd h (by decide)

theorem isDigitChar_not_space {c : Char} (h : isDigitChar c = true) :
    isSpaceChar c = false := by
  cases hs : isSpaceChar c with
  | false => rfl
  | true =>
    have := isDigitChar_bounds h
    simp only [isSpaceChar, Bool.or_eq_true, decide_eq_true_eq] at hs
    rcases hs with ((rfl | rfl) | rfl) | rfl <;> exact absurd h (by decide)

theorem dropWhile_space_digits {cs : List Char} (hall : ∀ c ∈ cs, isDigitChar c = true) :
    cs.dropWhile isSpaceChar = cs := by
  cases cs with
  | nil => rfl
  | cons x xs =>
    have hx := isDigitChar_not_space (hall x (by simp))
    simp [List.dropWhile, hx]

theorem takeWhile_digits {cs : List Char} (hall : ∀ c ∈ cs, isDigitChar c = true) :
    cs.takeWhile isDigitChar = cs := by
  induction cs with
  | nil => rfl
  | cons x xs ih =>
    have hx := hall x (by simp)
    simp only [List.takeWhile, hx]
    exact congrArg (x :: ·) (ih fun c hc => hall c (by simp [hc]))

theorem dropWhile_digits {cs : List Char} (hall : ∀ c ∈ cs, isDigitChar c = true) :
    cs.dropWhile isDigitChar = [] := by
  induction cs with
  | nil => rfl
  | cons x xs ih =>
    have hx := hall x (by simp)
    simp only [List.dropWhile, hx]
    exact ih fun c hc => hall c (by simp [hc])

theorem trimChars_digits {cs : List Char} (hall : ∀ c ∈ cs, isDigitChar c = true) :
    trimChars cs = cs := by
  unfold trimChars
  rw [dropWhile_space_digits hall,
      dropWhile_space_digits (fun c hc => hall c (List.mem_reverse.mp hc)),
      List.reverse_reverse]

theorem jsParseIntChars_digits {cs : List Char} (hne : cs ≠ [])
    (hall : ∀ c ∈ cs, isDigitChar c = true) :
    jsParseIntChars cs = some (digitsToNat cs : Int) := by
  obtain ⟨x, xs, rfl⟩ := List.exists_cons_of_ne_nil hne
  have hx := hall x (by simp)
  have h1 := dropWhile_space_digits hall
  have h2 := takeWhile_digits hall
  simp [jsParseIntChars, h1, h2, isDigitChar_ne_minus hx, isDigitChar_ne_plus hx]

theorem jsNumberChars_digits {cs : List Char} (hne : cs ≠ [])
    (hall : ∀ c ∈ cs, isDigitChar c = true) :
    jsNumberChars cs = some (digitsToNat cs : ℚ) := by
  obtain ⟨x, xs, rfl⟩ := List.exists_cons_of_ne_nil hne
  have hx := hall x (by simp)
  have h1 := trimChars_digits hall
  have h2 := takeWhile_digits hall
  have h3 := dropWhile_digits hall
  simp [jsNumberChars, h1, h2, h3, isDigitChar_ne_minus hx, isDigitChar_ne_plus hx]

theorem intOfNat_tmod (m n : Nat) : Int.tmod (m : Int) (n : Int) = ((m % n : Nat) : Int) := rfl

theorem hhmm_shape {st : String} (h : isHHMM st = true) :
    ∃ a b d e, st.data = [a, b, ':', d, e] ∧ isDigitChar a = true ∧ isDigitChar b = true
      ∧ isDigitChar d = true ∧ isDigitChar e = true := by
  unfold isHHMM at h
  split at h
  case h_2 => exact absurd h (by simp)
  case h_1 a b c d e heq =>
    simp only [Bool.and_eq_true, beq_iff_eq] at h
    obtain ⟨⟨⟨⟨ha, hb⟩, hc⟩, hd⟩, he⟩ := h
    subst hc
    exact ⟨a, b, d, e, heq, ha, hb, hd, he⟩

theorem digitsToNat_two (a b : Char) :
    digitsToNat [a, b] = 10 * digitVal a + digitVal b := by
  simp [digitsToNat, List.foldl]

theorem digitsToNat_four (a b d e : Char) :
    digitsToNat [a, b, d, e] =
      1000 * digitVal a + 100 * digitVal b + 10 * digitVal d + digitVal e := by
  simp [digitsToNat, List.foldl]
  ring

theorem splitOnChar_hhmm {a b d e : Char} (ha : isDigitChar a = true)
    (hb : isDigitChar b = true) (hd : isDigitChar d = true) (he : isDigitChar e = true) :
    splitOnChar ':' [a, b, ':', d, e] = [[a, b], [d, e]] := by
  simp [splitOnChar, isDigitChar_ne_colon ha, isDigitChar_ne_colon hb,
    isDigitChar_ne_colon hd, isDigitChar_ne_colon he]

/-- On a well-formed `HH:mm` string the candidate-side parse of `checkOverlap`
(`parseInt` on the colon-stripped string, floor-divided and remaindered by
100) computes exactly the specification's minutes-since-midnight value. -/
theorem parseCandidateMinutes_hhmm {st : String} (h : isHHMM st = true) :
    (parseCandidateMinutes st).map (fun n => (n : ℚ)) = some (specTimeMinutes st) := by
  obtain ⟨a, b, d, e, hdata, ha, hb, hd, he⟩ := hhmm_shape h
  have hall : ∀ c ∈ [a, b, d, e], isDigitChar c = true := by
    intro c hc
    simp only [List.mem_cons, List.not_mem_nil, or_false] at hc
    rcases hc with rfl | rfl | rfl | rfl <;> assumption
  have hrm : removeFirstChar ':' [a, b, ':', d, e] = [a, b, d, e] := by
    simp [removeFirstChar, isDigitChar_ne_colon ha, isDigitChar_ne_colon hb]
  unfold parseCandidateMinutes specTimeMinutes
  rw [hdata, hrm, jsParseIntChars_digits (by simp) hall, splitOnChar_hhmm ha hb hd he]
  simp only [Option.map]
  have h100 : (100 : Int) = ((100 : Nat) : Int) := rfl
  rw [h100, ← Int.ofNat_fdiv, intOfNat_tmod, digitsToNat_four, digitsToNat_two, digitsToNat_two]
  have ha9 := digitVal_le ha
  have hb9 := digitVal_le hb
  have hd9 := digitVal_le hd
  have he9 := digitVal_le he
  have hdiv : (1000 * digitVal a + 100 * digitVal b + 10 * digitVal d + digitVal e) / 100
      = 10 * digitVal a + digitVal b := by omega
  have hmod : (1000 * digitVal a + 100 * digitVal b + 10 * digitVal d + digitVal e) % 100
      = 10 * digitVal d + digitVal e := by omega
  rw [hdiv, hmod]
  push_cast
  ring_nf
  simp

/-- On a well-formed `HH:mm` string the stored-side parse of `checkOverlap`
(`split` on the colon, `Number` on the parts) computes exactly the
specification's minutes-since-midnight value. -/
theorem timeToMinutes_hhmm {st : String} (h : isHHMM st = true) :
    timeToMinutes st = some (specTimeMinutes st) := by
  obtain ⟨a, b, d, e, hdata, ha, hb, hd, he⟩ := hhmm_shape h
  unfold timeToMinutes specTimeMinutes
  rw [hdata, splitOnChar_hhmm ha hb hd he]
  have h1 : jsNumberChars [a, b] = some (digitsToNat [a, b] : ℚ) :=
    jsNumberChars_digits (by simp) (by
      intro c hc
      simp only [List.mem_cons, List.not_mem_nil, or_false] at hc
      rcases hc with rfl | rfl <;> assumption)
  have h2 : jsNumberChars [d, e] = some (digitsToNat [d, e] : ℚ) :=
    jsNumberChars_digits (by simp) (by
      intro c hc
      simp only [List.mem_cons, List.not_mem_nil, or_false] at hc
      rcases hc with rfl | rfl <;> assumption)
  simp only [List.map_cons, List.map_nil, h1, h2, jsMul, jsAdd]
  rw [digitsToNat_two, digitsToNat_two]
  push_cast
  ring_nf

theorem isHHMM_ne_empty {st : String} (h : isHHMM st = true) : (st == "") = false := by
  obtain ⟨a, b, d, e, hdata, -, -, -, -⟩ := hhmm_shape h
  rw [beq_eq_false_iff_ne]
  intro hst
  rw [hst] at hdata
  exact absurd hdata (by simp [String.data])

/-- Under a present date, a well-formed start time and a present nonzero
duration, `checkOverlap` is the disjunction, over the existing collection, of
the per-booking comparison its loop performs, with the candidate minutes
already computed out. -/
theorem checkOverlap_eq_any (fd : FormData) (existing : List Booking)
    {st : String} {d : ℚ}
    (hdate : jsStrTruthy fd.date = true)
    (hst : fd.startTime = some st) (hhmm : isHHMM st = true)
    (hdur : fd.durationHours = some d) (hd0 : d ≠ 0) :
    checkOverlap fd existing = existing.any fun b =>
      !(b.status == BookingStatus.CANCELLED) && (b.date == fd.date.getD "")
        && (jsLt (some (specTimeMinutes st))
              (jsAdd (timeToMinutes b.startTime) (jsMul b.durationHours (some 60)))
            && jsGt (some (specTimeMinutes st + d * 60)) (timeToMinutes b.startTime)) := by
  have hstT : jsStrTruthy fd.startTime = true := by
    rw [hst]
    simp [jsStrTruthy, isHHMM_ne_empty hhmm]
  have hdT : jsNumTruthy fd.durationHours = true := by
    rw [hdur]
    simp [jsNumTruthy, hd0]
  unfold checkOverlap
  rw [hdate, hstT, hdT]
  simp only [Bool.not_true, Bool.or_self, Bool.false_or, if_false]
  have hgetst : fd.startTime.getD "" = st := by rw [hst]; rfl
  rw [hgetst, hdur]
  have hcand := parseCandidateMinutes_hhmm hhmm
  rw [hcand]
  have hmul : jsMul (some d) (some 60) = some (d * 60) := rfl
  have hadd : jsAdd (some (specTimeMinutes st)) (some (d * 60)) = some (specTimeMinutes st + d * 60) := rfl
  rw [hmul, hadd, if_neg (by simp)]
  congr 1
  funext b
  by_cases hc : b.status = BookingStatus.CANCELLED
  · simp [hc]
  · by_cases hdd : b.date = fd.date.getD ""
    · simp [hc, hdd]
    · simp [hc, hdd]

theorem specTimeMinutes_eval {st : String} {h m : List Char}
    (hsp : splitOnChar ':' st.data = [h, m]) :
    specTimeMinutes st = 60 * (digitsToNat h : ℚ) + (digitsToNat m : ℚ) := by
  unfold specTimeMinutes
  rw [hsp]

/-- One successful or failed submission preserves well-formed start times and
the no-overlap invariant, provided the submitted start time (if present) is a
well-formed clock string and the submitted duration is not the number zero. -/
theorem handleSubmit_preserves (fd : FormData) (newId : String) (now : Int) (bs : List Booking)
    (hval : ∀ st, fd.startTime = some st → isHHMM st = true)
    (hdur : fd.durationHours ≠ some 0)
    (hhmm : ∀ b ∈ bs, isHHMM b.startTime = true)
    (hinv : noOverlapInvariant bs) :
    (∀ b ∈ (handleSubmit fd newId now bs).bookings, isHHMM b.startTime = true) ∧
      noOverlapInvariant (handleSubmit fd newId now bs).bookings := by
  unfold handleSubmit
  by_cases hg : (!(jsStrTruthy fd.clientName) || !(jsStrTruthy fd.date) || !(jsStrTruthy fd.startTime)) = true
  · rw [if_pos hg]
    exact ⟨hhmm, hinv⟩
  · rw [if_neg hg]
    by_cases ho : checkOverlap fd bs = true
    · rw [if_pos ho]
      exact ⟨hhmm, hinv⟩
    · rw [if_neg ho]
      have ho' : checkOverlap fd bs = false := by
        cases hcb : checkOverlap fd bs with
        | false => rfl
        | true => exact absurd hcb ho
      simp only [Bool.or_eq_true, Bool.not_eq_true', not_or, Bool.not_eq_false] at hg
      have hcn : jsStrTruthy fd.clientName = true := hg.1.1
      have hdt : jsStrTruthy fd.date = true := hg.1.2
      have hstt : jsStrTruthy fd.startTime = true := hg.2
      obtain ⟨st, hst⟩ : ∃ st, fd.startTime = some st := by
        unfold jsStrTruthy at hstt
        split at hstt
        next s heq => exact ⟨s, heq⟩
        next => exact absurd hstt (by simp)
      have hsthh : isHHMM st = true := hval st hst
      have hnbstart : (newBookingOf fd newId now).startTime = st := by
        simp [newBookingOf, hst]
      constructor
      · intro b hb
        rcases List.mem_append.mp hb with hb | hb
        · exact hhmm b hb
        · rw [List.mem_singleton.mp hb, hnbstart]
          exact hsthh
      · unfold noOverlapInvariant
        rw [List.pairwise_append]
        refine ⟨hinv, by simp, ?_⟩
        intro a ha b hb
        rw [List.mem_singleton.mp hb]
        clear hb
        cases hfd : fd.durationHours with
        | none =>
          have : (newBookingOf fd newId now).durationHours = none := by
            simp [newBookingOf, hfd]
          simp [specOverlapB, specEnd, this, jsLt]
        | some dq =>
          have hdq : dq ≠ 0 := by
            rintro rfl
            exact hdur hfd
          rw [checkOverlap_eq_any fd bs hdt hst hsthh hfd hdq, List.any_eq_false] at ho'
          have hbody := ho' a ha
          rw [Bool.not_eq_true] at hbody
          have hta : timeToMinutes a.startTime = some (specStart a) :=
            timeToMinutes_hhmm (hhmm a ha)
          have hnbdate : (newBookingOf fd newId now).date = fd.date.getD "" := by
            simp [newBookingOf]
          have hnbstatus : (newBookingOf fd newId now).status = BookingStatus.CONFIRMED := by
            simp [newBookingOf]
          have hnbdur : (newBookingOf fd newId now).durationHours = some dq := by
            simp [newBookingOf, hfd]
          have hnbspecEnd : specEnd (newBookingOf fd newId now)
              = some (specTimeMinutes st + dq * 60) := by
            simp [specEnd, hnbdur, specStart, hnbstart]
          rcases Bool.and_eq_false_iff.mp hbody with hsd | hcomp
          · rcases Bool.and_eq_false_iff.mp hsd with hs | hd
            · have : a.status = BookingStatus.CANCELLED := by
                simpa using hs
              simp [specOverlapB, this]
            · simp [specOverlapB, hnbdate, beq_eq_false_iff_ne.mp hd]
          · cases hda : a.durationHours with
            | none =>
              have : specEnd a = none := by simp [specEnd, hda]
              simp [specOverlapB, this, jsGt]
            | some da =>
              have hsea : specEnd a = some (specStart a + da * 60) := by
                simp [specEnd, hda, specStart]
              rw [hta, hda] at hcomp
              have hmul2 : jsMul (some da) (some 60) = some (da * 60) := rfl
              have hadd2 : jsAdd (some (specStart a)) (some (da * 60))
                  = some (specStart a + da * 60) := rfl
              rw [hmul2, hadd2] at hcomp
              rcases Bool.and_eq_false_iff.mp hcomp with hlt | hgt
              · simp only [jsLt, decide_eq_false_iff_not] at hlt
                unfold specStart at hlt
                simp [specOverlapB, hnbspecEnd, hsea, hnbstart, specStart, jsGt, jsLt, hlt]
              · simp only [jsGt, decide_eq_false_iff_not] at hgt
                unfold specStart at hgt
                simp [specOverlapB, hnbspecEnd, hsea, hnbstart, specStart, jsGt, jsLt, hgt]

/-- Every sequence of submissions with well-formed start times and nonzero
durations keeps every start time well-formed and preserves the no-overlap
invariant. -/
theorem createsRun_inv : ∀ (inputs : List CreateInput) (bs : List Booking),
    (∀ inp ∈ inputs,
      (∀ st, inp.fd.startTime = some st → isHHMM st = true) ∧ inp.fd.durationHours ≠ some 0) →
    (∀ b ∈ bs, isHHMM b.startTime = true) → noOverlapInvariant bs →
    (∀ b ∈ createsRun bs inputs, isHHMM b.startTime = true) ∧
      noOverlapInvariant (createsRun bs inputs) := by
  intro inputs
  induction inputs with
  | nil =>
    intro bs _ hh hi
    exact ⟨hh, hi⟩
  | cons inp rest ih =>
    intro bs hins hh hi
    have hstep := handleSubmit_preserves inp.fd inp.newId inp.now bs
      (hins inp (by simp)).1 (hins inp (by simp)).2 hh hi
    exact ih _ (fun i hi2 => hins i (by simp [hi2])) hstep.1 hstep.2

/-- C1 (amended): starting from the empty collection, after every sequence of
create operations each of which passes the validation of `handleSubmit`, and
in which every submitted start time is a well-formed `HH:mm` string and no
submitted `durationHours` is the number `0`, any two bookings of the resulting
collection with the same date and both non-cancelled occupy non-overlapping
open intervals.  (Without the duration condition the invariant fails, see the
counterexample: a zero-duration submission bypasses the overlap check.) -/
theorem create_noOverlap_invariant (inputs : List CreateInput)
    (hval : ∀ inp ∈ inputs, ∀ st, inp.fd.startTime = some st → isHHMM st = true)
    (hdur : ∀ inp ∈ inputs, inp.fd.durationHours ≠ some 0) :
    noOverlapInvariant (createsRun [] inputs) :=
  (createsRun_inv inputs [] (fun i hi => ⟨hval i hi, hdur i hi⟩)
    (by simp) List.Pairwise.nil).2

/-- Witness for the amended C1: the two creates of Scenario B (a two-hour
session at 10:00 and a one-hour session at 12:00 on the same date) satisfy the
hypotheses, and the resulting collection satisfies the invariant. -/
theorem create_noOverlap_invariant_witness :
    noOverlapInvariant (createsRun [] [⟨exFormA, "id1", 0⟩, ⟨exFormTouch, "id2", 1⟩]) :=
  create_noOverlap_invariant [⟨exFormA, "id1", 0⟩, ⟨exFormTouch, "id2", 1⟩]
    (by
      intro inp hin st hst
      rcases (by simpa using hin : inp = ⟨exFormA, "id1", 0⟩ ∨ inp = ⟨exFormTouch, "id2", 1⟩)
        with rfl | rfl <;>
        (injection (by simpa [exFormA, exFormTouch] using hst : some _ = some st) with h;
          subst h; decide))
    (by decide)

/-- C1 counterexample: against the claim as stated, the sequence consisting of
a valid two-hour create at 10:00 followed by a zero-duration create at 11:00
on the same date is accepted in full (each submission passes validation,
because a falsy `durationHours` makes `checkOverlap` return `false`), yet the
two stored non-cancelled bookings of that date violate the claimed no-overlap
formula: 660 < 720 and 660 > 600. -/
theorem noOverlap_invariant_counterexample :
    ¬ noOverlapInvariant (createsRun [] [⟨exFormA, "id1", 0⟩, ⟨exFormZero, "id2", 1⟩]) := by
  have hrun : createsRun [] [⟨exFormA, "id1", 0⟩, ⟨exFormZero, "id2", 1⟩]
      = [exBookingA, exBookingZero] := by decide
  rw [hrun]
  have h600 : specTimeMinutes "10:00" = 600 := by
    rw [specTimeMinutes_eval (by decide : splitOnChar ':' "10:00".data = [['1', '0'], ['0', '0']])]
    norm_num [(by decide : digitsToNat ['1', '0'] = 10), (by decide : digitsToNat ['0', '0'] = 0)]
  have h660 : specTimeMinutes "11:00" = 660 := by
    rw [specTimeMinutes_eval (by decide : splitOnChar ':' "11:00".data = [['1', '1'], ['0', '0']])]
    norm_num [(by decide : digitsToNat ['1', '1'] = 11), (by decide : digitsToNat ['0', '0'] = 0)]
  have hov : specOverlapB exBookingA exBookingZero = true := by
    simp only [specOverlapB, specStart, specEnd, exBookingA, exBookingZero, jsLt, jsGt,
      Option.map_some', h600, h660]
    norm_num
    decide
  intro hpair
  rcases List.pairwise_cons.mp hpair with ⟨hforall, -⟩
  have := hforall exBookingZero (by simp)
  rw [hov] at this
  exact absurd this (by simp)

theorem jsStrTruthy_some {o : Option String} (h : jsStrTruthy o = true) :
    ∃ s, o = some s ∧ s ≠ "" := by
  match o, h with
  | some s, h => exact ⟨s, rfl, by simpa [jsStrTruthy] using h⟩
  | none, h => exact absurd h (by simp [jsStrTruthy])

/-- C2: for a candidate whose date is present, whose start time is a present
well-formed `HH:mm` string and whose duration is a present nonzero number, and
an existing collection of bookings with well-formed start times and numeric
durations, `checkOverlap` returns `true` exactly when some existing
non-cancelled booking of the same date overlaps the candidate in the
open-interval sense on minutes since midnight: candidateStart < bEnd and
candidateEnd > bStart.  In particular touching endpoints do not count and a
cancelled booking never produces `true`. -/
theorem checkOverlap_iff (fd : FormData) (existing : List Booking)
    (st : String) (d : ℚ)
    (hdate : jsStrTruthy fd.date = true)
    (hst : fd.startTime = some st) (hhmm : isHHMM st = true)
    (hdur : fd.durationHours = some d) (hd0 : d ≠ 0)
    (hex : ∀ b ∈ existing, isHHMM b.startTime = true ∧ b.durationHours ≠ none) :
    (checkOverlap fd existing = true ↔
      ∃ b ∈ existing, b.status ≠ BookingStatus.CANCELLED ∧ fd.date = some b.date ∧
        specTimeMinutes st
            < specTimeMinutes b.startTime + b.durationHours.getD 0 * 60 ∧
        specTimeMinutes b.startTime < specTimeMinutes st + d * 60) := by
  obtain ⟨dv, hdv, -⟩ := jsStrTruthy_some hdate
  have hgetd : fd.date.getD "" = dv := by rw [hdv]; rfl
  rw [checkOverlap_eq_any fd existing hdate hst hhmm hdur hd0, List.any_eq_true]
  constructor
  · rintro ⟨b, hb, hbody⟩
    obtain ⟨hbh, hbd⟩ := hex b hb
    obtain ⟨db, hdb⟩ := Option.ne_none_iff_exists.mp hbd
    rw [timeToMinutes_hhmm hbh, ← hdb] at hbody
    have hmulb : jsMul (some db) (some 60) = some (db * 60) := rfl
    have haddb : jsAdd (some (specTimeMinutes b.startTime)) (some (db * 60))
        = some (specTimeMinutes b.startTime + db * 60) := rfl
    rw [hmulb, haddb] at hbody
    simp only [Bool.and_eq_true, Bool.not_eq_true', beq_iff_eq, beq_eq_false_iff_ne,
      jsLt, jsGt, decide_eq_true_eq] at hbody
    refine ⟨b, hb, hbody.1.1, ?_, ?_, ?_⟩
    · rw [hdv, hbody.1.2, hgetd]
    · rw [← hdb]
      simpa using hbody.2.1
    · exact hbody.2.2
  · rintro ⟨b, hb, hstat, hdateeq, h1, h2⟩
    obtain ⟨hbh, hbd⟩ := hex b hb
    obtain ⟨db, hdb⟩ := Option.ne_none_iff_exists.mp hbd
    refine ⟨b, hb, ?_⟩
    rw [timeToMinutes_hhmm hbh, ← hdb]
    have hmulb : jsMul (some db) (some 60) = some (db * 60) := rfl
    have haddb : jsAdd (some (specTimeMinutes b.startTime)) (some (db * 60))
        = some (specTimeMinutes b.startTime + db * 60) := rfl
    rw [hmulb, haddb]
    have hdateb : b.date = fd.date.getD "" := by
      rw [hgetd]
      rw [hdv] at hdateeq
      injection hdateeq with hh
      exact hh.symm
    rw [← hdb] at h1
    simp only [Bool.and_eq_true, Bool.not_eq_true', beq_iff_eq, beq_eq_false_iff_ne,
      jsLt, jsGt, decide_eq_true_eq]
    refine ⟨⟨?_, hdateb⟩, ?_, h2⟩
    · simp [hstat]
    · simpa using h1

/-- Witness for C2: the theorem instantiated at the touching-endpoints
scenario (candidate at 12:00 for one hour against a stored 10:00-12:00
booking). -/
theorem checkOverlap_iff_witness :
    checkOverlap exFormTouch [exBookingA] = true ↔
      ∃ b ∈ [exBookingA], b.status ≠ BookingStatus.CANCELLED
        ∧ exFormTouch.date = some b.date ∧
        specTimeMinutes "12:00"
            < specTimeMinutes b.startTime + b.durationHours.getD 0 * 60 ∧
        specTimeMinutes b.startTime < specTimeMinutes "12:00" + 1 * 60 :=
  checkOverlap_iff exFormTouch [exBookingA] "12:00" 1 (by decide) rfl (by decide) rfl
    (by decide) (by decide)

/-- C8: when the candidate's `date`, `startTime` or `durationHours` is absent
or falsy, `checkOverlap` returns `false` whatever the existing collection. -/
theorem checkOverlap_missing_false (nb : FormData) (existing : List Booking)
    (h : jsStrTruthy nb.date = false ∨ jsStrTruthy nb.startTime = false
      ∨ jsNumTruthy nb.durationHours = false) :
    checkOverlap nb existing = false := by
  unfold checkOverlap
  rcases h with h | h | h <;> simp [h]

/-- Witness for C8: a candidate with no date at all is never reported as
overlapping, even against a conflicting stored booking. -/
theorem checkOverlap_missing_false_witness :
    checkOverlap ⟨some "Eve", none, none, some "10:00", some 2, none, none⟩ [exBookingA]
      = false :=
  checkOverlap_missing_false ⟨some "Eve", none, none, some "10:00", some 2, none, none⟩
    [exBookingA] (Or.inl (by decide))

/-- C9: duration is never validated at creation.  The zero-duration
submission at 11:00 on a date whose 10:00-12:00 slot is occupied passes the
overlap check (the falsy duration short-circuits it to `false`), is accepted
by `handleSubmit` with no error, and is appended with `durationHours = 0`
although its start time lies strictly inside the occupied interval
(600 < 660 < 720 in minutes). -/
theorem duration_unvalidated_accepts :
    checkOverlap exFormZero [exBookingA] = false ∧
    (handleSubmit exFormZero "id2" 1 [exBookingA]).error = none ∧
    (handleSubmit exFormZero "id2" 1 [exBookingA]).bookings = [exBookingA, exBookingZero] ∧
    exBookingZero.durationHours = some 0 ∧
    specStart exBookingA < specStart exBookingZero ∧
    ∃ e, specEnd exBookingA = some e ∧ specStart exBookingZero < e := by
  have h600 : specTimeMinutes "10:00" = 600 := by
    rw [specTimeMinutes_eval (by decide : splitOnChar ':' "10:00".data = [['1', '0'], ['0', '0']])]
    norm_num [(by decide : digitsToNat ['1', '0'] = 10), (by decide : digitsToNat ['0', '0'] = 0)]
  have h660 : specTimeMinutes "11:00" = 660 := by
    rw [specTimeMinutes_eval (by decide : splitOnChar ':' "11:00".data = [['1', '1'], ['0', '0']])]
    norm_num [(by decide : digitsToNat ['1', '1'] = 11), (by decide : digitsToNat ['0', '0'] = 0)]
  refine ⟨by decide, by decide, by decide, by decide, ?_, ?_⟩
  · simp only [specStart, exBookingA, exBookingZero, h600, h660]
    norm_num
  · refine ⟨720, ?_, ?_⟩
    · simp only [specEnd, specStart, exBookingA, Option.map_some', h600]
      norm_num
    · simp only [specStart, exBookingZero, h660]
      norm_num

/-- C6: a submission is rejected (an error message is set and the collection
is left untouched) exactly when `clientName`, `date` or `startTime` is
missing or empty, or `checkOverlap` reports an overlap; otherwise no error is
set and exactly the one new record is appended, carrying status `CONFIRMED`
and the submitted field values. -/
theorem handleSubmit_spec (fd : FormData) (newId : String) (now : Int)
    (existing : List Booking) :
    ((handleSubmit fd newId now existing).error.isSome = true ↔
        (jsStrTruthy fd.clientName = false ∨ jsStrTruthy fd.date = false
          ∨ jsStrTruthy fd.startTime = false ∨ checkOverlap fd existing = true))
    ∧ ((handleSubmit fd newId now existing).error.isSome = true →
        (handleSubmit fd newId now existing).bookings = existing)
    ∧ ((handleSubmit fd newId now existing).error = none →
        (handleSubmit fd newId now existing).bookings
          = existing ++ [newBookingOf fd newId now])
    ∧ (newBookingOf fd newId now).status = BookingStatus.CONFIRMED
    ∧ (newBookingOf fd newId now).id = newId
    ∧ (newBookingOf fd newId now).clientName = fd.clientName.getD ""
    ∧ (newBookingOf fd newId now).date = fd.date.getD ""
    ∧ (newBookingOf fd newId now).startTime = fd.startTime.getD ""
    ∧ (newBookingOf fd newId now).durationHours = fd.durationHours
    ∧ (newBookingOf fd newId now).createdAt = now := by
  unfold handleSubmit
  by_cases h1 : (!(jsStrTruthy fd.clientName) || !(jsStrTruthy fd.date)
      || !(jsStrTruthy fd.startTime)) = true
  · rw [if_pos h1]
    simp only [Bool.or_eq_true, Bool.not_eq_true'] at h1
    refine ⟨?_, fun _ => rfl, ?_, rfl, rfl, rfl, rfl, rfl, rfl, rfl⟩
    · simp only [Option.isSome_some, true_iff]
      rcases h1 with (h | h) | h
      · exact Or.inl h
      · exact Or.inr (Or.inl h)
      · exact Or.inr (Or.inr (Or.inl h))
    · intro hc
      exact absurd hc (by simp)
  · rw [if_neg h1]
    simp only [Bool.or_eq_true, Bool.not_eq_true', not_or, Bool.not_eq_false] at h1
    by_cases h2 : checkOverlap fd existing = true
    · rw [if_pos h2]
      refine ⟨?_, fun _ => rfl, ?_, rfl, rfl, rfl, rfl, rfl, rfl, rfl⟩
      · simp only [Option.isSome_some, true_iff]
        exact Or.inr (Or.inr (Or.inr h2))
      · intro hc
        exact absurd hc (by simp)
    · rw [if_neg h2]
      refine ⟨?_, ?_, fun _ => rfl, rfl, rfl, rfl, rfl, rfl, rfl, rfl⟩
      · constructor
        · intro hc
          exact absurd hc (by simp)
        · rintro (h | h | h | h)
          · rw [h1.1.1] at h
            exact absurd h (by simp)
          · rw [h1.1.2] at h
            exact absurd h (by simp)
          · rw [h1.2] at h
            exact absurd h (by simp)
          · exact absurd h h2
      · intro hc
        exact absurd hc (by simp)

/-- Witness for C6: the specification instantiated at the zero-duration
submission against the occupied collection, where the submission is in fact
accepted and appended. -/
theorem handleSubmit_spec_witness :
    ((handleSubmit exFormZero "id2" 1 [exBookingA]).error.isSome = true ↔
        (jsStrTruthy exFormZero.clientName = false ∨ jsStrTruthy exFormZero.date = false
          ∨ jsStrTruthy exFormZero.startTime = false
          ∨ checkOverlap exFormZero [exBookingA] = true))
    ∧ ((handleSubmit exFormZero "id2" 1 [exBookingA]).error.isSome = true →
        (handleSubmit exFormZero "id2" 1 [exBookingA]).bookings = [exBookingA])
    ∧ ((handleSubmit exFormZero "id2" 1 [exBookingA]).error = none →
        (handleSubmit exFormZero "id2" 1 [exBookingA]).bookings
          = [exBookingA] ++ [newBookingOf exFormZero "id2" 1])
    ∧ (newBookingOf exFormZero "id2" 1).status = BookingStatus.CONFIRMED
    ∧ (newBookingOf exFormZero "id2" 1).id = "id2"
    ∧ (newBookingOf exFormZero "id2" 1).clientName = exFormZero.clientName.getD ""
    ∧ (newBookingOf exFormZero "id2" 1).date = exFormZero.date.getD ""
    ∧ (newBookingOf exFormZero "id2" 1).startTime = exFormZero.startTime.getD ""
    ∧ (newBookingOf exFormZero "id2" 1).durationHours = exFormZero.durationHours
    ∧ (newBookingOf exFormZero "id2" 1).createdAt = 1 :=
  handleSubmit_spec exFormZero "id2" 1 [exBookingA]

/-- C5: `handleComplete` keeps the collection's length; at every position, a
booking whose id matches gets status `COMPLETED` and the supplied end time
stored exactly, with every other field unchanged, and a booking whose id does
not match is left entirely unchanged. -/
theorem handleComplete_frame (id endTime : String) (bs : List Booking) (i : Nat)
    (hi : i < bs.length) :
    (handleComplete id endTime bs).length = bs.length ∧
    ∀ hj : i < (handleComplete id endTime bs).length,
      (bs[i].id = id →
        (handleComplete id endTime bs)[i].status = BookingStatus.COMPLETED ∧
        (handleComplete id endTime bs)[i].actualEndTime = some endTime ∧
        (handleComplete id endTime bs)[i].id = bs[i].id ∧
        (handleComplete id endTime bs)[i].clientName = bs[i].clientName ∧
        (handleComplete id endTime bs)[i].phoneNumber = bs[i].phoneNumber ∧
        (handleComplete id endTime bs)[i].date = bs[i].date ∧
        (handleComplete id endTime bs)[i].startTime = bs[i].startTime ∧
        (handleComplete id endTime bs)[i].durationHours = bs[i].durationHours ∧
        (handleComplete id endTime bs)[i].type = bs[i].type ∧
        (handleComplete id endTime bs)[i].createdAt = bs[i].createdAt ∧
        (handleComplete id endTime bs)[i].notes = bs[i].notes ∧
        (handleComplete id endTime bs)[i].invoiceDetails = bs[i].invoiceDetails) ∧
      (bs[i].id ≠ id → (handleComplete id endTime bs)[i] = bs[i]) := by
  refine ⟨by simp [handleComplete], ?_⟩
  intro hj
  have hmap : (handleComplete id endTime bs)[i]
      = if bs[i].id = id
        then { bs[i] with status := BookingStatus.COMPLETED, actualEndTime := some endTime }
        else bs[i] := by
    simp [handleComplete]
  constructor
  · intro hid
    rw [hmap, if_pos hid]
    exact ⟨rfl, rfl, rfl, rfl, rfl, rfl, rfl, rfl, rfl, rfl, rfl, rfl⟩
  · intro hid
    rw [hmap, if_neg hid]

/-- Witness for C5: completing the single confirmed booking of a one-element
collection at position 0 with end time 13:30. -/
theorem handleComplete_frame_witness :
    (handleComplete "id1" "13:30" [exBookingA]).length = [exBookingA].length ∧
    ∀ hj : 0 < (handleComplete "id1" "13:30" [exBookingA]).length,
      (([exBookingA][0]).id = "id1" →
        (handleComplete "id1" "13:30" [exBookingA])[0].status = BookingStatus.COMPLETED ∧
        (handleComplete "id1" "13:30" [exBookingA])[0].actualEndTime = some "13:30" ∧
        (handleComplete "id1" "13:30" [exBookingA])[0].id = ([exBookingA][0]).id ∧
        (handleComplete "id1" "13:30" [exBookingA])[0].clientName = ([exBookingA][0]).clientName ∧
        (handleComplete "id1" "13:30" [exBookingA])[0].phoneNumber = ([exBookingA][0]).phoneNumber ∧
        (handleComplete "id1" "13:30" [exBookingA])[0].date = ([exBookingA][0]).date ∧
        (handleComplete "id1" "13:30" [exBookingA])[0].startTime = ([exBookingA][0]).startTime ∧
        (handleComplete "id1" "13:30" [exBookingA])[0].durationHours = ([exBookingA][0]).durationHours ∧
        (handleComplete "id1" "13:30" [exBookingA])[0].type = ([exBookingA][0]).type ∧
        (handleComplete "id1" "13:30" [exBookingA])[0].createdAt = ([exBookingA][0]).createdAt ∧
        (handleComplete "id1" "13:30" [exBookingA])[0].notes = ([exBookingA][0]).notes ∧
        (handleComplete "id1" "13:30" [exBookingA])[0].invoiceDetails
          = ([exBookingA][0]).invoiceDetails) ∧
      (([exBookingA][0]).id ≠ "id1" → (handleComplete "id1" "13:30" [exBookingA])[0] = [exBookingA][0]) :=
  handleComplete_frame "id1" "13:30" [exBookingA] 0 (by decide)

/-- C10: a mutation aimed at an id that matches no booking of the collection
is a no-op, for all three by-id handlers. -/
theorem unknownId_noop (id : String) (status : BookingStatus) (endTime : String)
    (ub : Booking) (bs : List Booking)
    (h1 : ∀ b ∈ bs, b.id ≠ id) (h2 : ∀ b ∈ bs, b.id ≠ ub.id) :
    handleStatusChange id status bs = bs ∧ handleComplete id endTime bs = bs ∧
      handleUpdateBooking ub bs = bs := by
  refine ⟨?_, ?_, ?_⟩
  · unfold handleStatusChange
    rw [List.map_congr_left fun b hb => if_neg (h1 b hb)]
    simp
  · unfold handleComplete
    rw [List.map_congr_left fun b hb => if_neg (h1 b hb)]
    simp
  · unfold handleUpdateBooking
    rw [List.map_congr_left fun b hb => if_neg (h2 b hb)]
    simp

/-- Witness for C10: mutations aimed at the unknown id `ghost`, and an update
whose booking id matches nothing, leave a two-element collection unchanged. -/
theorem unknownId_noop_witness :
    handleStatusChange "ghost" BookingStatus.CANCELLED [exBookingA, exCompleted]
        = [exBookingA, exCompleted] ∧
      handleComplete "ghost" "12:00" [exBookingA, exCompleted] = [exBookingA, exCompleted] ∧
      handleUpdateBooking exCancelled [exBookingA, exCompleted] = [exBookingA, exCompleted] :=
  unknownId_noop "ghost" BookingStatus.CANCELLED "12:00" exCancelled
    [exBookingA, exCompleted] (by decide) (by decide)

theorem foldl_jsAdd_sum (l : List Booking) (hdur : ∀ b ∈ l, b.durationHours ≠ none) :
    ∀ init : ℚ,
      l.foldl (fun acc curr =>
          jsAdd acc (if curr.status ≠ BookingStatus.CANCELLED then curr.durationHours else some 0))
        (some init)
      = some (init + ((l.filter fun b => decide (b.status ≠ BookingStatus.CANCELLED)).map
          (fun b => b.durationHours.getD 0)).sum) := by
  induction l with
  | nil =>
    intro init
    simp
  | cons x xs ih =>
    intro init
    by_cases hx : x.status = BookingStatus.CANCELLED
    · have hif : (if x.status ≠ BookingStatus.CANCELLED then x.durationHours else some 0)
          = some 0 := by simp [hx]
      rw [List.foldl_cons, hif]
      have hj : jsAdd (some init) (some 0) = some (init + 0) := rfl
      rw [hj, ih (fun b hb => hdur b (by simp [hb]))]
      simp [List.filter_cons, hx]
    · obtain ⟨dx, hdx⟩ := Option.ne_none_iff_exists.mp (hdur x (by simp))
      have hif : (if x.status ≠ BookingStatus.CANCELLED then x.durationHours else some 0)
          = some dx := by simp [hx, ← hdx]
      rw [List.foldl_cons, hif]
      have hj : jsAdd (some init) (some dx) = some (init + dx) := rfl
      rw [hj, ih (fun b hb => hdur b (by simp [hb]))]
      have hfc : (x :: xs).filter (fun b => decide (b.status ≠ BookingStatus.CANCELLED))
          = x :: xs.filter (fun b => decide (b.status ≠ BookingStatus.CANCELLED)) := by
        simp [List.filter_cons, hx]
      rw [hfc, List.map_cons, List.sum_cons, ← hdx]
      simp only [Option.getD_some]
      congr 1
      ring

/-- General characterization of the report statistics: membership of the
range filter, the three counts as counts over the whole collection, and the
hours fold as a sum over the non-cancelled bookings in range. -/
theorem reportStats_char (bs : List Booking) (startDate endDate : String)
    (hdur : ∀ b ∈ bs, b.durationHours ≠ none) :
    (∀ b, b ∈ filteredBookings bs startDate endDate
        ↔ b ∈ bs ∧ startDate ≤ b.date ∧ b.date ≤ endDate)
    ∧ (reportStats bs startDate endDate).total
        = bs.countP (fun b => decide (startDate ≤ b.date) && decide (b.date ≤ endDate))
    ∧ (reportStats bs startDate endDate).completed
        = bs.countP (fun b => decide (b.status = BookingStatus.COMPLETED)
            && (decide (startDate ≤ b.date) && decide (b.date ≤ endDate)))
    ∧ (reportStats bs startDate endDate).cancelled
        = bs.countP (fun b => decide (b.status = BookingStatus.CANCELLED)
            && (decide (startDate ≤ b.date) && decide (b.date ≤ endDate)))
    ∧ (reportStats bs startDate endDate).hours
        = some (((bs.filter fun b => decide (b.status ≠ BookingStatus.CANCELLED)
            && (decide (startDate ≤ b.date) && decide (b.date ≤ endDate))).map
              (fun b => b.durationHours.getD 0)).sum) := by
  refine ⟨?_, ?_, ?_, ?_, ?_⟩
  · intro b
    simp [filteredBookings, List.mem_filter]
  · show (filteredBookings bs startDate endDate).length = _
    rw [List.countP_eq_length_filter]
    rfl
  · show ((filteredBookings bs startDate endDate).filter
        (fun b => decide (b.status = BookingStatus.COMPLETED))).length = _
    rw [List.countP_eq_length_filter]
    unfold filteredBookings
    rw [List.filter_filter]
  · show ((filteredBookings bs startDate endDate).filter
        (fun b => decide (b.status = BookingStatus.CANCELLED))).length = _
    rw [List.countP_eq_length_filter]
    unfold filteredBookings
    rw [List.filter_filter]
  · show (filteredBookings bs startDate endDate).foldl _ (some 0) = _
    have hd2 : ∀ b ∈ filteredBookings bs startDate endDate, b.durationHours ≠ none :=
      fun b hb => hdur b (List.mem_filter.mp hb).1
    rw [foldl_jsAdd_sum _ hd2 0]
    unfold filteredBookings
    rw [List.filter_filter]
    norm_num

/-- C4: for every collection and date range, the report statistics are
computed over exactly the bookings whose date lies in the inclusive range
under lexicographic string comparison: `total` counts them, `completed` and
`cancelled` count them by status, and `hours` sums `durationHours` over the
non-cancelled ones; moreover Scenario D (one completed three-hour, one
cancelled two-hour, one confirmed one-hour booking in range) yields the
statistics 3, 1, 1 and 4. -/
theorem reportStats_spec (bs : List Booking) (startDate endDate : String)
    (hdur : ∀ b ∈ bs, b.durationHours ≠ none) :
    ((∀ b, b ∈ filteredBookings bs startDate endDate
        ↔ b ∈ bs ∧ startDate ≤ b.date ∧ b.date ≤ endDate)
    ∧ (reportStats bs startDate endDate).total
        = bs.countP (fun b => decide (startDate ≤ b.date) && decide (b.date ≤ endDate))
    ∧ (reportStats bs startDate endDate).completed
        = bs.countP (fun b => decide (b.status = BookingStatus.COMPLETED)
            && (decide (startDate ≤ b.date) && decide (b.date ≤ endDate)))
    ∧ (reportStats bs startDate endDate).cancelled
        = bs.countP (fun b => decide (b.status = BookingStatus.CANCELLED)
            && (decide (startDate ≤ b.date) && decide (b.date ≤ endDate)))
    ∧ (reportStats bs startDate endDate).hours
        = some (((bs.filter fun b => decide (b.status ≠ BookingStatus.CANCELLED)
            && (decide (startDate ≤ b.date) && decide (b.date ≤ endDate))).map
              (fun b => b.durationHours.getD 0)).sum))
    ∧ reportStats exScenarioD "2024-06-01" "2024-06-30"
        = { total := 3, completed := 1, cancelled := 1, hours := some 4 } := by
  refine ⟨reportStats_char bs startDate endDate hdur, ?_⟩
  have h := reportStats_char exScenarioD "2024-06-01" "2024-06-30" (by decide)
  have htot : (reportStats exScenarioD "2024-06-01" "2024-06-30").total = 3 := by
    rw [h.2.1]
    simp [exScenarioD, List.countP_cons, List.countP_nil, String.le_iff_toList_le]
    decide
  have hcom : (reportStats exScenarioD "2024-06-01" "2024-06-30").completed = 1 := by
    rw [h.2.2.1]
    simp [exScenarioD, List.countP_cons, List.countP_nil, String.le_iff_toList_le]
    decide
  have hcan : (reportStats exScenarioD "2024-06-01" "2024-06-30").cancelled = 1 := by
    rw [h.2.2.2.1]
    simp [exScenarioD, List.countP_cons, List.countP_nil, String.le_iff_toList_le]
    decide
  have hhrs : (reportStats exScenarioD "2024-06-01" "2024-06-30").hours = some 4 := by
    rw [h.2.2.2.2]
    simp +decide [exScenarioD, List.filter_cons, List.filter_nil, String.le_iff_toList_le]
    norm_num
  cases hre : reportStats exScenarioD "2024-06-01" "2024-06-30" with
  | mk t c k hr =>
    rw [hre] at htot hcom hcan hhrs
    simp only at htot hcom hcan hhrs
    rw [htot, hcom, hcan, hhrs]

/-- Witness for C4: the characterization applied to Scenario D, whose
durations are all present. -/
theorem reportStats_spec_witness :
    ((∀ b, b ∈ filteredBookings exScenarioD "2024-06-01" "2024-06-30"
        ↔ b ∈ exScenarioD ∧ "2024-06-01" ≤ b.date ∧ b.date ≤ "2024-06-30")
    ∧ (reportStats exScenarioD "2024-06-01" "2024-06-30").total
        = exScenarioD.countP (fun b => decide ("2024-06-01" ≤ b.date)
            && decide (b.date ≤ "2024-06-30"))
    ∧ (reportStats exScenarioD "2024-06-01" "2024-06-30").completed
        = exScenarioD.countP (fun b => decide (b.status = BookingStatus.COMPLETED)
            && (decide ("2024-06-01" ≤ b.date) && decide (b.date ≤ "2024-06-30")))
    ∧ (reportStats exScenarioD "2024-06-01" "2024-06-30").cancelled
        = exScenarioD.countP (fun b => decide (b.status = BookingStatus.CANCELLED)
            && (decide ("2024-06-01" ≤ b.date) && decide (b.date ≤ "2024-06-30")))
    ∧ (reportStats exScenarioD "2024-06-01" "2024-06-30").hours
        = some (((exScenarioD.filter fun b => decide (b.status ≠ BookingStatus.CANCELLED)
            && (decide ("2024-06-01" ≤ b.date) && decide (b.date ≤ "2024-06-30"))).map
              (fun b => b.durationHours.getD 0)).sum))
    ∧ reportStats exScenarioD "2024-06-01" "2024-06-30"
        = { total := 3, completed := 1, cancelled := 1, hours := some 4 } :=
  reportStats_spec exScenarioD "2024-06-01" "2024-06-30" (by decide)

/-- C7: the today view contains exactly the bookings dated today (as a
permutation, i.e. with multiplicity) and is sorted by start time ascending;
the upcoming view contains exactly the bookings dated today or later and is
sorted by the concatenation of date and start time ascending. -/
theorem derivedViews_spec (today : String) (bs : List Booking) :
    ((getTodaysBookings today bs).Perm (bs.filter fun b => b.date == today)
      ∧ List.Pairwise (fun a b => a.startTime ≤ b.startTime) (getTodaysBookings today bs))
    ∧ ((getUpcomingBookings today bs).Perm (bs.filter fun b => decide (today ≤ b.date))
      ∧ List.Pairwise (fun a b => a.date ++ a.startTime ≤ b.date ++ b.startTime)
          (getUpcomingBookings today bs)) := by
  refine ⟨⟨List.mergeSort_perm _ _, ?_⟩, ⟨List.mergeSort_perm _ _, ?_⟩⟩
  · have hs := @List.sorted_mergeSort Booking
      (fun a b => decide (a.startTime ≤ b.startTime))
      (fun a b c h1 h2 => by
        simp only [decide_eq_true_eq] at h1 h2 ⊢
        exact le_trans h1 h2)
      (fun a b => by
        simpa using le_total a.startTime b.startTime)
      (bs.filter fun b => b.date == today)
    exact hs.imp fun h => by simpa using h
  · have hs := @List.sorted_mergeSort Booking
      (fun a b => decide (a.date ++ a.startTime ≤ b.date ++ b.startTime))
      (fun a b c h1 h2 => by
        simp only [decide_eq_true_eq] at h1 h2 ⊢
        exact le_trans h1 h2)
      (fun a b => by
        simpa using le_total (a.date ++ a.startTime) (b.date ++ b.startTime))
      (bs.filter fun b => decide (today ≤ b.date))
    exact hs.imp fun h => by simpa using h

theorem nodupKeys_eq {bs : List Booking} (h : (bs.map fun b => b.id).Nodup)
    {a b : Booking} (ha : a ∈ bs) (hb : b ∈ bs) (heq : a.id = b.id) : a = b := by
  induction bs with
  | nil => cases ha
  | cons x xs ih =>
    rw [List.map_cons, List.nodup_cons] at h
    rcases List.mem_cons.mp ha with rfl | ha2 <;> rcases List.mem_cons.mp hb with rfl | hb2
    · rfl
    · have hmem : b.id ∈ List.map (fun b => b.id) xs := List.mem_map_of_mem _ hb2
      rw [← heq] at hmem
      exact absurd hmem h.1
    · have hmem : a.id ∈ List.map (fun b => b.id) xs := List.mem_map_of_mem _ ha2
      rw [heq] at hmem
      exact absurd hmem h.1
    · exact ih h.2 ha2 hb2

/-- Core induction for status monotonicity: if every holder of an id has a
non-`CONFIRMED` status, a UI-invocable sequence of store operations keeps a
holder present and keeps every holder at that status. -/
theorem terminalFrozen (id0 : String) (s0 : BookingStatus)
    (hs0 : s0 ≠ BookingStatus.CONFIRMED) :
    ∀ (ops : List StoreOp) (bs : List Booking), uiSequence bs ops →
      (∃ b ∈ bs, b.id = id0) → (∀ b ∈ bs, b.id = id0 → b.status = s0) →
      (∃ b ∈ applyOps bs ops, b.id = id0)
        ∧ ∀ b ∈ applyOps bs ops, b.id = id0 → b.status = s0 := by
  intro ops
  induction ops with
  | nil =>
    intro bs _ hex hall
    exact ⟨hex, hall⟩
  | cons op rest ih =>
    intro bs hseq hex hall
    obtain ⟨hop, hrest⟩ := hseq
    have hpres : (∃ b ∈ applyOp bs op, b.id = id0)
        ∧ ∀ b ∈ applyOp bs op, b.id = id0 → b.status = s0 := by
      cases op with
      | add nb =>
        obtain ⟨hbst, hfresh⟩ := hop
        constructor
        · obtain ⟨w, hw, hwid⟩ := hex
          exact ⟨w, by simp [applyOp, handleAddBooking, hw], hwid⟩
        · intro b2 hb2 hid
          rcases List.mem_append.mp hb2 with hmem | hmem
          · exact hall b2 hmem hid
          · obtain ⟨w, hw, hwid⟩ := hex
            rw [List.mem_singleton.mp hmem] at hid
            exact absurd (hwid.trans hid.symm) (hfresh w hw)
      | statusChange id s =>
        obtain ⟨hsC, hgate⟩ := hop
        constructor
        · obtain ⟨w, hw, hwid⟩ := hex
          refine ⟨if w.id = id then { w with status := s } else w,
            List.mem_map_of_mem _ hw, ?_⟩
          by_cases hwi : w.id = id
          · rw [if_pos hwi]
            simpa using hwid
          · rw [if_neg hwi]
            exact hwid
        · intro b2 hb2 hid
          obtain ⟨a, ha, rfl⟩ := List.mem_map.mp hb2
          by_cases hai : a.id = id
          · have : a.status = BookingStatus.CONFIRMED := hgate a ha hai
            have haid0 : a.id = id0 := by
              by_cases h0 : a.id = id0
              · exact h0
              · rw [if_pos hai] at hid
                simp only at hid
                exact hid
            exact absurd ((hall a ha haid0).symm.trans this) hs0
          · rw [if_neg hai] at hid ⊢
            exact hall a ha hid
      | complete id t =>
        constructor
        · obtain ⟨w, hw, hwid⟩ := hex
          refine ⟨if w.id = id
              then { w with status := BookingStatus.COMPLETED, actualEndTime := some t }
              else w,
            List.mem_map_of_mem _ hw, ?_⟩
          by_cases hwi : w.id = id
          · rw [if_pos hwi]
            simpa using hwid
          · rw [if_neg hwi]
            exact hwid
        · intro b2 hb2 hid
          obtain ⟨a, ha, rfl⟩ := List.mem_map.mp hb2
          by_cases hai : a.id = id
          · have : a.status = BookingStatus.CONFIRMED := hop a ha hai
            have haid0 : a.id = id0 := by
              by_cases h0 : a.id = id0
              · exact h0
              · rw [if_pos hai] at hid
                simp only at hid
                exact hid
            exact absurd ((hall a ha haid0).symm.trans this) hs0
          · rw [if_neg hai] at hid ⊢
            exact hall a ha hid
      | update ub =>
        constructor
        · obtain ⟨w, hw, hwid⟩ := hex
          refine ⟨if w.id = ub.id then ub else w, List.mem_map_of_mem _ hw, ?_⟩
          by_cases hwi : w.id = ub.id
          · rw [if_pos hwi]
            rw [hwi] at hwid
            exact hwid
          · rw [if_neg hwi]
            exact hwid
        · intro b2 hb2 hid
          obtain ⟨a, ha, rfl⟩ := List.mem_map.mp hb2
          by_cases hai : a.id = ub.id
          · rw [if_pos hai] at hid ⊢
            have hstat : a.status = ub.status := hop a ha hai
            have haid0 : a.id = id0 := by rw [hai]; exact hid
            rw [← hstat]
            exact hall a ha haid0
          · rw [if_neg hai] at hid ⊢
            exact hall a ha hid
    exact ih (applyOp bs op) hrest hpres.1 hpres.2

/-- C3 (amended): in a collection with unique booking ids, once a booking's
status is `COMPLETED` or `CANCELLED`, no sequence of store operations as the
UI invokes them — cancel and complete aimed only at bookings currently
`CONFIRMED`, updates that preserve the target's status, additions with fresh
ids — changes that booking's status.  (The raw handlers called with arbitrary
arguments can leave the terminal states, see the counterexample:
`handleComplete` on a `CANCELLED` booking makes it `COMPLETED`.) -/
theorem status_monotone_ui (ops : List StoreOp) (bs : List Booking)
    (hids : (bs.map fun b => b.id).Nodup)
    (hseq : uiSequence bs ops) (b : Booking) (hb : b ∈ bs)
    (hterm : b.status = BookingStatus.COMPLETED ∨ b.status = BookingStatus.CANCELLED) :
    ∀ b2 ∈ applyOps bs ops, b2.id = b.id → b2.status = b.status := by
  have hs0 : b.status ≠ BookingStatus.CONFIRMED := by
    rcases hterm with h | h <;> simp [h]
  exact (terminalFrozen b.id b.status hs0 ops bs hseq ⟨b, hb, rfl⟩
    fun b2 hb2 hid => by rw [nodupKeys_eq hids hb2 hb hid]).2

/-- Witness for the amended C3: cancelling the only confirmed booking of a
two-element collection leaves the status of the completed booking intact. -/
theorem status_monotone_ui_witness :
    ((applyOps [exBookingA, exCompleted]
        [StoreOp.statusChange "id1" BookingStatus.CANCELLED]).getD 1 exCancelled).status
      = exCompleted.status :=
  status_monotone_ui [StoreOp.statusChange "id1" BookingStatus.CANCELLED]
    [exBookingA, exCompleted] (by decide)
    ⟨⟨rfl, by decide⟩, trivial⟩
    exCompleted (by simp) (Or.inl rfl)
    ((applyOps [exBookingA, exCompleted]
        [StoreOp.statusChange "id1" BookingStatus.CANCELLED]).getD 1 exCancelled)
    (by decide) (by decide)

/-- C3 counterexample: the claim over raw store operations fails —
`handleComplete`, one of the listed operations, applied to the id of a
`CANCELLED` booking changes its status to `COMPLETED` (and `CANCELLED` is not
terminal for the raw handlers). -/
theorem terminal_status_counterexample :
    exCancelled.status = BookingStatus.CANCELLED ∧
    (handleComplete "id3" "12:00" [exCancelled]).map (fun b => b.status)
      = [BookingStatus.COMPLETED] := by
  exact ⟨rfl, by decide⟩
